import Mathlib

/-
Verification of the CRM backend in crm-backend/main.py.

The development shallowly embeds the record store (the `interactions` and
`hcp_directory` MySQL tables plus the per-call connection), the four tool
operations (`log_interaction`, `search_hcp`, `edit_interaction`,
`check_compliance`), and the `/chat` endpoint's reconciliation of tool
calls into a UI payload.  State is passed explicitly: a `DB` value carries
the stored rows, the auto-increment counter, the directory table, a flag
modelling connection failure, and the trace of executed SQL statements
(one trace entry per `cursor.execute` call, so "the store was never
called" is literally "the trace did not grow").  A Python exception that
escapes a tool is an `Except.error`; a tool that returns a string yields
`Except.ok`.
-/

/-- A row of the `interactions` table.  `id` is the auto-increment key;
the six remaining columns are exactly those named in the INSERT of
`log_interaction`. -/
structure InteractionRow where
  id : Nat
  hcp_name : String
  interaction_type : String
  interaction_date : String
  topics_discussed : String
  sentiment : String
  outcomes : String
deriving DecidableEq

/-- The six mutable columns of an `InteractionRow`. -/
inductive Col where
  | hcp_name
  | interaction_type
  | interaction_date
  | topics_discussed
  | sentiment
  | outcomes
deriving DecidableEq

/-- A row of the read-only `hcp_directory` table. -/
structure DirRow where
  name : String
  specialty : String
  hospital : String
deriving DecidableEq

/-- One executed SQL statement, recorded with its bound values:
an INSERT of a full row, an UPDATE with its SET list, or the directory
SELECT with its LIKE fragment. -/
inductive Stmt where
  | insertStmt (r : InteractionRow)
  | updateStmt (us : List (Col × String))
  | selectStmt (q : String)
deriving DecidableEq

/-- The store state threaded through every operation. -/
structure DB where
  interactions : List InteractionRow
  nextId : Nat
  directory : List DirRow
  connFail : Bool
  stmts : List Stmt
deriving DecidableEq

/-- A Python exception escaping a tool body (here: a store failure,
carrying the text `str(e)` would render to). -/
inductive PyError where
  | storeError (m : String)
deriving DecidableEq

/-- The text `str(e)` yields for the modelled connection failure; the
concrete wording is environment-determined, only its presence matters. -/
def connErrText : String := "Connection to MySQL server failed"

/-- The message carried by an exception. -/
def PyError.msg : PyError → String
  | .storeError m => m

/-- `get_db()`: opens a connection, raising on connectivity failure. -/
def get_db (db : DB) : Except PyError DB :=
  if db.connFail then Except.error (PyError.storeError connErrText) else Except.ok db

/-- The arguments of `log_interaction` as declared in its Python
signature: `hcp_name`, `type` and `date` have no default, while
`topics`, `sentiment` and `outcomes` default to the sentinel "None". -/
structure LogArgs where
  hcp_name : String
  type : String
  date : String
  topics : String := "None"
  sentiment : String := "None"
  outcomes : String := "None"
deriving DecidableEq

/-- `log_interaction`: inside `try`, connect, INSERT all six values as
bound parameters, commit, and return the fixed success string; any
exception is caught and rendered into the error string. -/
def log_interaction (a : LogArgs) (db : DB) : Except PyError (DB × String) :=
  match get_db db with
  | Except.error e => Except.ok (db, "❌ Error logging interaction: " ++ e.msg)
  | Except.ok db1 =>
      let row : InteractionRow :=
        ⟨db1.nextId, a.hcp_name, a.type, a.date, a.topics, a.sentiment, a.outcomes⟩
      Except.ok ({ db1 with
                    interactions := db1.interactions ++ [row],
                    nextId := db1.nextId + 1,
                    stmts := db1.stmts ++ [Stmt.insertStmt row] },
                 "✅ Interaction logged successfully.")

/-- The arguments of `edit_interaction`: all six fields optional,
defaulting to Python `None` (here `Option.none`). -/
structure EditArgs where
  hcp_name : Option String := none
  type : Option String := none
  date : Option String := none
  topics : Option String := none
  sentiment : Option String := none
  outcomes : Option String := none
deriving DecidableEq

/-- One `if x and x != "None"` guard of `edit_interaction`: the
contribution of a single argument to the update set.  Python truthiness
of a string is non-emptiness, so `none`, the empty string and the
sentinel "None" all contribute nothing. -/
def entry (f : Col) : Option String → List (Col × String)
  | none => []
  | some s => if s ≠ "" ∧ s ≠ "None" then [(f, s)] else []

/-- The update set built by `edit_interaction` (the `updates`/`values`
lists), in the source's field order. -/
def updateSet (a : EditArgs) : List (Col × String) :=
  entry Col.hcp_name a.hcp_name ++
  entry Col.interaction_type a.type ++
  entry Col.interaction_date a.date ++
  entry Col.topics_discussed a.topics ++
  entry Col.sentiment a.sentiment ++
  entry Col.outcomes a.outcomes

/-- Overwrite one column of a row. -/
def setField (r : InteractionRow) : Col → String → InteractionRow
  | .hcp_name, v => { r with hcp_name := v }
  | .interaction_type, v => { r with interaction_type := v }
  | .interaction_date, v => { r with interaction_date := v }
  | .topics_discussed, v => { r with topics_discussed := v }
  | .sentiment, v => { r with sentiment := v }
  | .outcomes, v => { r with outcomes := v }

/-- Apply a SET list to a row, left to right. -/
def applyUpdates (r : InteractionRow) (us : List (Col × String)) : InteractionRow :=
  us.foldl (fun acc p => setField acc p.1 p.2) r

/-- The maximal `id` among the stored rows (0 on an empty table). -/
def maxId (rows : List InteractionRow) : Nat :=
  rows.foldl (fun m r => max m r.id) 0

/-- Apply `g` to the first row carrying id `i`, leaving everything else
in place.  `UPDATE ... ORDER BY id DESC LIMIT 1` touches exactly the row
with the maximal id, so the UPDATE of `edit_interaction` is this with
`i := maxId rows`; on an empty table it touches nothing and succeeds. -/
def updateFirstWithId (g : InteractionRow → InteractionRow) (i : Nat) :
    List InteractionRow → List InteractionRow
  | [] => []
  | r :: rs => if r.id = i then g r :: rs else r :: updateFirstWithId g i rs

/-- `edit_interaction`: inside `try`, connect, build the update set; if
it is empty return "No changes requested." without executing anything;
otherwise run the UPDATE against the id-maximal row and return the fixed
success string.  Any exception is caught and rendered into the error
string. -/
def edit_interaction (a : EditArgs) (db : DB) : Except PyError (DB × String) :=
  match get_db db with
  | Except.error e => Except.ok (db, "❌ Error updating: " ++ e.msg)
  | Except.ok db1 =>
      if updateSet a = [] then Except.ok (db1, "No changes requested.")
      else
        Except.ok ({ db1 with
                      interactions :=
                        updateFirstWithId (fun r => applyUpdates r (updateSet a))
                          (maxId db1.interactions) db1.interactions,
                      stmts := db1.stmts ++ [Stmt.updateStmt (updateSet a)] },
                   "✅ Interaction updated in database.")

/-- Python `str.lower`, character by character. -/
def lowerStr (s : String) : String := String.mk (s.data.map Char.toLower)

/-- Substring test on character lists: `containsSub n h` is Python's
`n in h` for strings. -/
def containsSub (needle : List Char) : List Char → Bool
  | [] => needle.isEmpty
  | c :: rest => needle.isPrefixOf (c :: rest) || containsSub needle rest

/-- The fixed restricted-term list of `check_compliance`. -/
def risky_keywords : List String := ["guarantee", "cure", "miracle", "off-label"]

/-- `word in text.lower()` for one keyword. -/
def termPresent (w text : String) : Bool :=
  containsSub w.data (lowerStr text).data

/-- The list comprehension of `check_compliance`: the keywords found in
the lowercased text, in the keyword list's order. -/
def flaggedTerms (text : String) : List String :=
  risky_keywords.filter (fun w => termPresent w text)

/-- The apostrophe character, for rendering Python `repr` output. -/
def quoteCh : Char := Char.ofNat 39

/-- Python `repr` of a string (embedded-quote escaping not modelled; no
modelled value requires it). -/
def pyStrRepr (s : String) : String := String.mk (quoteCh :: s.data ++ [quoteCh])

/-- Comma-separated concatenation, as Python renders list elements. -/
def commaSep : List String → String
  | [] => ""
  | [x] => x
  | x :: y :: xs => x ++ ", " ++ commaSep (y :: xs)

/-- Python `str` of a list of strings. -/
def pyListRepr (xs : List String) : String :=
  "[" ++ commaSep (xs.map pyStrRepr) ++ "]"

/-- Python `str` of a 3-tuple of strings. -/
def pyTupleRepr3 (a b c : String) : String :=
  "(" ++ pyStrRepr a ++ ", " ++ pyStrRepr b ++ ", " ++ pyStrRepr c ++ ")"

/-- `check_compliance`: pure scan, warning text when something is
flagged, fixed pass text otherwise. -/
def check_compliance (text : String) : String :=
  if flaggedTerms text ≠ [] then
    "⚠️ COMPLIANCE WARNING: Found restricted terms: " ++ pyListRepr (flaggedTerms text) ++
      ". Please rephrase."
  else "✅ Compliance Check Passed."

/-- `check_compliance` as a tool invocation: it never touches the store
and never raises. -/
def compliance_tool (text : String) (db : DB) : Except PyError (DB × String) :=
  Except.ok (db, check_compliance text)

/-- MySQL `LIKE` match with the default case-insensitive collation. -/
def likeMatch (q name : String) : Bool :=
  containsSub (lowerStr q).data (lowerStr name).data

/-- The rows returned by the directory SELECT. -/
def searchRows (db : DB) (q : String) : List DirRow :=
  db.directory.filter (fun r => likeMatch q r.name)

/-- `search_hcp`: connect, run the LIKE query, and return `str(result)`
or the no-match text.  There is no `try` around this body: a connection
failure escapes the tool as an exception. -/
def search_hcp (q : String) (db : DB) : Except PyError (DB × String) :=
  match get_db db with
  | Except.error e => Except.error e
  | Except.ok db1 =>
      let rows := searchRows db1 q
      Except.ok ({ db1 with stmts := db1.stmts ++ [Stmt.selectStmt q] },
                 if rows = [] then "No HCP found."
                 else "[" ++ commaSep (rows.map (fun r => pyTupleRepr3 r.name r.specialty r.hospital)) ++ "]")

/-- One tool call as it appears in an agent message: the tool's name and
its argument mapping. -/
structure ToolCall where
  name : String
  args : List (String × String)
deriving DecidableEq

/-- One message of the agent trace: its `content` and its (possibly
empty) `tool_calls` attribute. -/
structure Message where
  content : String
  tool_calls : List ToolCall
deriving DecidableEq

/-- The membership test `tool['name'] in ['log_interaction',
'edit_interaction']` of the chat endpoint. -/
def isMutation (tc : ToolCall) : Bool :=
  tc.name = "log_interaction" || tc.name = "edit_interaction"

/-- The inner loop of the chat endpoint's extraction: fold one message's
tool calls over the running `extracted_data`. -/
def scanToolCalls (acc : Option (List (String × String))) (tcs : List ToolCall) :
    Option (List (String × String)) :=
  tcs.foldl (fun a tc => if isMutation tc then some tc.args else a) acc

/-- The chat endpoint's `extracted_data` after scanning every message. -/
def extractFormData (msgs : List Message) : Option (List (String × String)) :=
  msgs.foldl (fun a m => scanToolCalls a m.tool_calls) none

/-- Last element of a list (Python `xs[-1]`, as an `Option`). -/
def lastOf {α : Type} : List α → Option α
  | [] => none
  | [a] => some a
  | _ :: b :: l => lastOf (b :: l)

/-- The `/chat` endpoint's returned pair: the last message's content
(`response`) and the extracted arguments (`form_data`). -/
def chatTurn (msgs : List Message) : Option String × Option (List (String × String)) :=
  ((lastOf msgs).map (fun m => m.content), extractFormData msgs)

/-- The full sequence of tool invocations executed during the turn, in
trace order. -/
def executedCalls : List Message → List ToolCall
  | [] => []
  | m :: ms => m.tool_calls ++ executedCalls ms

/-- The argument mapping of the last Log/Edit invocation of a sequence
of executed invocations.  This is the spec's description of the
extracted-arguments snapshot, stated independently of the endpoint's
fold; the theorems compare the two. -/
def lastMutationArgs (invs : List ToolCall) : Option (List (String × String)) :=
  (lastOf (invs.filter isMutation)).map (fun tc => tc.args)

/-- First-some choice on options: `fallback o a` is `o` unless it is
`none`, in which case it is `a`. -/
def fallback {α : Type} : Option α → Option α → Option α
  | some v, _ => some v
  | none, a => a

/-- The argument mapping of one call of the `log_interaction` tool:
each parameter either supplied or absent. -/
structure LogCallArgs where
  hcp_name : Option String := none
  type : Option String := none
  date : Option String := none
  topics : Option String := none
  sentiment : Option String := none
  outcomes : Option String := none
deriving DecidableEq

/-- Binding a call to `log_interaction`'s Python signature: `hcp_name`,
`type` and `date` have no default, so the binding fails (`none`) when
any of them is absent; `topics`, `sentiment` and `outcomes` fall back to
their declared default "None". -/
def bindLogArgs (c : LogCallArgs) : Option LogArgs :=
  match c.hcp_name, c.type, c.date with
  | some h, some t, some d =>
      some ⟨h, t, d, c.topics.getD "None", c.sentiment.getD "None", c.outcomes.getD "None"⟩
  | _, _, _ => none

/-- An empty store with a reachable connection. -/
def db0 : DB := ⟨[], 1, [], false, []⟩

/-- An empty store whose connection attempt fails. -/
def dbFail : DB := ⟨[], 1, [], true, []⟩

/-- An empty store whose next auto-increment identifier is 7. -/
def db7 : DB := ⟨[], 7, [], false, []⟩

/-- First demo Log call: topics supplied, the other optionals left to
their "None" default. -/
def logA : LogArgs := ⟨"Dr. Adams", "meeting", "2026-10-01", "A", "None", "None"⟩

/-- Second demo Log call: only the required arguments supplied. -/
def logB : LogArgs := ⟨"Dr. Brown", "call", "2026-10-02", "None", "None", "None"⟩

/-- The row `logA` inserts into `db0`. -/
def rowA : InteractionRow := ⟨1, "Dr. Adams", "meeting", "2026-10-01", "A", "None", "None"⟩

/-- The row `logB` inserts next. -/
def rowB : InteractionRow := ⟨2, "Dr. Brown", "call", "2026-10-02", "None", "None", "None"⟩

/-- The store after the first demo Log. -/
def dbDemo1 : DB := ⟨[rowA], 2, [], false, [Stmt.insertStmt rowA]⟩

/-- The store after both demo Logs. -/
def dbDemo2 : DB := ⟨[rowA, rowB], 3, [], false, [Stmt.insertStmt rowA, Stmt.insertStmt rowB]⟩

/-- A demo Edit call supplying only a sentiment. -/
def editSentiment : EditArgs := ⟨none, none, none, none, some "positive", none⟩

/-- `rowB` after the demo Edit. -/
def rowB2 : InteractionRow := ⟨2, "Dr. Brown", "call", "2026-10-02", "None", "positive", "None"⟩

/-- The store after the two demo Logs and the demo Edit: the first row
untouched, the second row's sentiment changed. -/
def dbDemo3 : DB :=
  ⟨[rowA, rowB2], 3, [], false,
   [Stmt.insertStmt rowA, Stmt.insertStmt rowB,
    Stmt.updateStmt [(Col.sentiment, "positive")]]⟩

/-- A demo search tool call as traced in an agent message. -/
def searchCall : ToolCall := ⟨"search_hcp", [("name_query", "Smith")]⟩

/-- A demo log tool call as traced in an agent message. -/
def logCall : ToolCall :=
  ⟨"log_interaction", [("hcp_name", "Dr. Smith"), ("type", "call"), ("date", "2026-10-12")]⟩

/-- A Search-then-Log-then-Search agent trace ending in a final answer. -/
def demoMsgs : List Message :=
  [⟨"searching", [searchCall]⟩, ⟨"logging", [logCall]⟩,
   ⟨"searching again", [searchCall]⟩, ⟨"done", []⟩]

/-- Read one column of a row. -/
def fieldVal (r : InteractionRow) : Col → String
  | .hcp_name => r.hcp_name
  | .interaction_type => r.interaction_type
  | .interaction_date => r.interaction_date
  | .topics_discussed => r.topics_discussed
  | .sentiment => r.sentiment
  | .outcomes => r.outcomes

/-- The argument an Edit call supplies for one column. -/
def suppliedVal (a : EditArgs) : Col → Option String
  | .hcp_name => a.hcp_name
  | .interaction_type => a.type
  | .interaction_date => a.date
  | .topics_discussed => a.topics
  | .sentiment => a.sentiment
  | .outcomes => a.outcomes

/-- The spec's field-merge rule for one column: keep the stored value
unless the caller supplied a concrete value, where absence, the empty
string and the sentinel "None" all mean "keep".  Stated from the spec's
words; the theorems compare it with the update set the code builds. -/
def keepOr (old : String) : Option String → String
  | none => old
  | some s => if s ≠ "" ∧ s ≠ "None" then s else old

/-- Apply one argument's contribution to a row (the effect of one
`entry`). -/
def applyOne (r : InteractionRow) (f : Col) : Option String → InteractionRow
  | none => r
  | some s => if s ≠ "" ∧ s ≠ "None" then setField r f s else r

/-- A demo row holding an intentionally empty topics value, for
exercising the blank-preservation statements. -/
def rowEmptyTopics : InteractionRow := ⟨3, "Dr. Chen", "visit", "2026-10-05", "", "None", "None"⟩

theorem fieldVal_setField (r : InteractionRow) (f : Col) (v : String) (g : Col) :
    fieldVal (setField r f v) g = if g = f then v else fieldVal r g := by
  cases f <;> cases g <;> rfl

theorem setField_id (r : InteractionRow) (f : Col) (v : String) :
    (setField r f v).id = r.id := by
  cases f <;> rfl

theorem applyUpdates_entry (r : InteractionRow) (f : Col) (v : Option String) :
    applyUpdates r (entry f v) = applyOne r f v := by
  cases v with
  | none => rfl
  | some s =>
      simp only [entry, applyOne]
      split <;> rfl

theorem applyUpdates_append (r : InteractionRow) (xs ys : List (Col × String)) :
    applyUpdates r (xs ++ ys) = applyUpdates (applyUpdates r xs) ys := by
  simp [applyUpdates, List.foldl_append]

theorem applyUpdates_updateSet (a : EditArgs) (r : InteractionRow) :
    applyUpdates r (updateSet a) =
      applyOne (applyOne (applyOne (applyOne (applyOne (applyOne r
        Col.hcp_name a.hcp_name)
        Col.interaction_type a.type)
        Col.interaction_date a.date)
        Col.topics_discussed a.topics)
        Col.sentiment a.sentiment)
        Col.outcomes a.outcomes := by
  simp only [updateSet, applyUpdates_append, applyUpdates_entry]

theorem fieldVal_applyOne (r : InteractionRow) (f : Col) (v : Option String) (g : Col) :
    fieldVal (applyOne r f v) g = if g = f then keepOr (fieldVal r f) v else fieldVal r g := by
  cases v with
  | none =>
      by_cases hgf : g = f
      · subst hgf; simp [applyOne, keepOr]
      · simp [applyOne, keepOr, hgf]
  | some s =>
      by_cases hc : s ≠ "" ∧ s ≠ "None"
      · by_cases hgf : g = f
        · subst hgf; simp [applyOne, keepOr, hc, fieldVal_setField]
        · simp [applyOne, keepOr, hc, hgf, fieldVal_setField]
      · by_cases hgf : g = f
        · subst hgf; simp [applyOne, keepOr, hc]
        · simp [applyOne, keepOr, hc, hgf]

theorem applyOne_id (r : InteractionRow) (f : Col) (v : Option String) :
    (applyOne r f v).id = r.id := by
  cases v with
  | none => rfl
  | some s =>
      simp only [applyOne]
      split
      · exact setField_id r f s
      · rfl

theorem fieldVal_merge (a : EditArgs) (r : InteractionRow) (g : Col) :
    fieldVal (applyUpdates r (updateSet a)) g = keepOr (fieldVal r g) (suppliedVal a g) := by
  rw [applyUpdates_updateSet]
  cases g <;> simp [fieldVal_applyOne, suppliedVal]

theorem applyUpdates_updateSet_id (a : EditArgs) (r : InteractionRow) :
    (applyUpdates r (updateSet a)).id = r.id := by
  rw [applyUpdates_updateSet]
  simp [applyOne_id]

theorem updateFirstWithId_ne (g : InteractionRow → InteractionRow) (i : Nat) :
    ∀ (rows : List InteractionRow) (j : Nat) (r : InteractionRow),
      rows[j]? = some r → r.id ≠ i → (updateFirstWithId g i rows)[j]? = some r := by
  intro rows
  induction rows with
  | nil => intro j r h _; simp at h
  | cons r0 rs ih =>
      intro j r h hne
      by_cases h0 : r0.id = i
      · simp only [updateFirstWithId, if_pos h0]
        cases j with
        | zero =>
            simp only [List.getElem?_cons_zero, Option.some.injEq] at h
            subst h
            exact absurd h0 hne
        | succ n =>
            simpa using h
      · simp only [updateFirstWithId, if_neg h0]
        cases j with
        | zero => simpa using h
        | succ n =>
            simp only [List.getElem?_cons_succ] at h ⊢
            exact ih n r h hne

theorem updateFirstWithId_hit (g : InteractionRow → InteractionRow) (i : Nat) :
    ∀ rows : List InteractionRow, (∃ r ∈ rows, r.id = i) →
      ∃ (j : Nat) (t : InteractionRow),
        rows[j]? = some t ∧ t.id = i ∧ (updateFirstWithId g i rows)[j]? = some (g t) := by
  intro rows
  induction rows with
  | nil => intro h; simp at h
  | cons r0 rs ih =>
      intro h
      by_cases h0 : r0.id = i
      · exact ⟨0, r0, by simp, h0, by simp [updateFirstWithId, if_pos h0]⟩
      · have hrs : ∃ r ∈ rs, r.id = i := by
          rcases h with ⟨r, hmem, hid⟩
          rcases List.mem_cons.mp hmem with h1 | h1
          · subst h1; exact absurd hid h0
          · exact ⟨r, h1, hid⟩
        rcases ih hrs with ⟨j, t, ht, hid, hres⟩
        exact ⟨j + 1, t, by simpa using ht, hid,
          by simp only [updateFirstWithId, if_neg h0, List.getElem?_cons_succ]; exact hres⟩

theorem updateFirstWithId_mem (g : InteractionRow → InteractionRow) (i : Nat) :
    ∀ (rows : List InteractionRow) (r' : InteractionRow),
      r' ∈ updateFirstWithId g i rows → r' ∈ rows ∨ ∃ r ∈ rows, r' = g r := by
  intro rows
  induction rows with
  | nil => intro r' h; simp [updateFirstWithId] at h
  | cons r0 rs ih =>
      intro r' h
      by_cases h0 : r0.id = i
      · simp only [updateFirstWithId, if_pos h0] at h
        rcases List.mem_cons.mp h with h1 | h1
        · exact Or.inr ⟨r0, List.mem_cons_self r0 rs, h1⟩
        · exact Or.inl (List.mem_cons_of_mem r0 h1)
      · simp only [updateFirstWithId, if_neg h0] at h
        rcases List.mem_cons.mp h with h1 | h1
        · exact Or.inl (by simp [h1])
        · rcases ih r' h1 with h2 | ⟨r, hr, he⟩
          · exact Or.inl (List.mem_cons_of_mem r0 h2)
          · exact Or.inr ⟨r, List.mem_cons_of_mem r0 hr, he⟩

theorem foldl_max_cases :
    ∀ (rows : List InteractionRow) (acc : Nat),
      (∃ r ∈ rows, rows.foldl (fun m r => max m r.id) acc = r.id) ∨
      (rows.foldl (fun m r => max m r.id) acc = acc ∧ ∀ r ∈ rows, r.id ≤ acc) := by
  intro rows
  induction rows with
  | nil => intro acc; exact Or.inr ⟨rfl, by simp⟩
  | cons r0 rs ih =>
      intro acc
      rcases ih (max acc r0.id) with ⟨r, hmem, heq⟩ | ⟨heq, hle⟩
      · exact Or.inl ⟨r, List.mem_cons_of_mem r0 hmem, heq⟩
      · rcases max_choice acc r0.id with hm | hm
        · refine Or.inr ⟨by simpa [hm] using heq, ?_⟩
          intro r hr
          rcases List.mem_cons.mp hr with h1 | h1
          · subst h1
            have := Nat.le_max_right acc r.id
            simpa [hm] using this
          · simpa [hm] using hle r h1
        · exact Or.inl ⟨r0, List.mem_cons_self r0 rs, by simpa [hm] using heq⟩

theorem maxId_mem (rows : List InteractionRow) (h : rows ≠ []) :
    ∃ r ∈ rows, r.id = maxId rows := by
  rcases foldl_max_cases rows 0 with ⟨r, hmem, heq⟩ | ⟨heq, hle⟩
  · exact ⟨r, hmem, heq.symm⟩
  · cases rows with
    | nil => exact absurd rfl h
    | cons r0 rs =>
        refine ⟨r0, List.mem_cons_self r0 rs, ?_⟩
        have h0 : r0.id ≤ 0 := hle r0 (List.mem_cons_self r0 rs)
        have : r0.id = 0 := Nat.le_zero.mp h0
        simp [maxId, heq, this]

theorem log_interaction_ok (a : LogArgs) (db : DB) (hc : db.connFail = false) :
    log_interaction a db =
      Except.ok ({ db with
                    interactions := db.interactions ++
                      [⟨db.nextId, a.hcp_name, a.type, a.date, a.topics, a.sentiment, a.outcomes⟩],
                    nextId := db.nextId + 1,
                    stmts := db.stmts ++
                      [Stmt.insertStmt
                        ⟨db.nextId, a.hcp_name, a.type, a.date, a.topics, a.sentiment, a.outcomes⟩] },
                 "✅ Interaction logged successfully.") := by
  simp [log_interaction, get_db, hc]

theorem edit_interaction_ok (a : EditArgs) (db : DB)
    (hc : db.connFail = false) (hu : updateSet a ≠ []) :
    edit_interaction a db =
      Except.ok ({ db with
                    interactions :=
                      updateFirstWithId (fun r => applyUpdates r (updateSet a))
                        (maxId db.interactions) db.interactions,
                    stmts := db.stmts ++ [Stmt.updateStmt (updateSet a)] },
                 "✅ Interaction updated in database.") := by
  simp [edit_interaction, get_db, hc, hu]

theorem lastOf_nonempty {α : Type} :
    ∀ (l : List α) (c : α), ∃ v, lastOf (c :: l) = some v := by
  intro l
  induction l with
  | nil => intro c; exact ⟨c, rfl⟩
  | cons b bs ih =>
      intro c
      rcases ih b with ⟨v, hv⟩
      exact ⟨v, by simpa [lastOf] using hv⟩

theorem lastOf_append {α : Type} :
    ∀ (xs ys : List α), lastOf (xs ++ ys) = fallback (lastOf ys) (lastOf xs) := by
  intro xs
  induction xs with
  | nil =>
      intro ys
      cases h : lastOf ys <;> simp [fallback, h, lastOf]
  | cons x xs ih =>
      intro ys
      cases hxy : xs ++ ys with
      | nil =>
          rcases List.append_eq_nil.mp hxy with ⟨hx, hy⟩
          subst hx; subst hy
          simp [lastOf, fallback]
      | cons c cs =>
          have h1 : lastOf (x :: xs ++ ys) = lastOf (xs ++ ys) := by
            rw [List.cons_append, hxy]
            rfl
          cases xs with
          | nil =>
              simp only [List.nil_append] at hxy
              subst hxy
              simp only [List.nil_append] at h1 ⊢
              rw [h1]
              rcases lastOf_nonempty cs c with ⟨v, hv⟩
              simp [fallback, hv, lastOf]
          | cons d ds =>
              rw [h1, ih ys]
              have h2 : lastOf (x :: d :: ds) = lastOf (d :: ds) := rfl
              rw [h2]

theorem fallback_map {α β : Type} (f : α → β) :
    ∀ (o a : Option α), (fallback o a).map f = fallback (o.map f) (a.map f) := by
  intro o a
  cases o <;> rfl

theorem fallback_none {α : Type} (o : Option α) : fallback o none = o := by
  cases o <;> rfl

theorem fallback_assoc {α : Type} (o p q : Option α) :
    fallback (fallback o p) q = fallback o (fallback p q) := by
  cases o <;> rfl

theorem lastMutationArgs_append (xs ys : List ToolCall) :
    lastMutationArgs (xs ++ ys) = fallback (lastMutationArgs ys) (lastMutationArgs xs) := by
  simp only [lastMutationArgs, List.filter_append, lastOf_append, fallback_map]

theorem scanToolCalls_eq :
    ∀ (tcs : List ToolCall) (acc : Option (List (String × String))),
      scanToolCalls acc tcs = fallback (lastMutationArgs tcs) acc := by
  intro tcs
  induction tcs with
  | nil => intro acc; simp [scanToolCalls, lastMutationArgs, lastOf, fallback]
  | cons tc rest ih =>
      intro acc
      have hstep : scanToolCalls acc (tc :: rest) =
          scanToolCalls (if isMutation tc then some tc.args else acc) rest := rfl
      rw [hstep, ih]
      by_cases hm : isMutation tc
      · simp only [if_pos hm]
        have hfil : (tc :: rest).filter isMutation = tc :: rest.filter isMutation := by
          simp [List.filter_cons, hm]
        cases hfr : rest.filter isMutation with
        | nil =>
            have h1 : lastMutationArgs rest = none := by
              simp [lastMutationArgs, hfr, lastOf]
            simp [lastMutationArgs, hfil, hfr, lastOf, h1, fallback]
        | cons c cs =>
            rcases lastOf_nonempty cs c with ⟨v, hv⟩
            have h1 : lastMutationArgs rest = some v.args := by
              simp [lastMutationArgs, hfr, hv]
            have h2 : lastMutationArgs (tc :: rest) = some v.args := by
              have : lastOf (tc :: c :: cs) = lastOf (c :: cs) := rfl
              simp [lastMutationArgs, hfil, hfr, this, hv]
            simp [h1, h2, fallback]
      · have hfil : (tc :: rest).filter isMutation = rest.filter isMutation := by
          simp [List.filter_cons, hm]
        simp only [if_neg hm]
        simp [lastMutationArgs, hfil]

theorem extract_go :
    ∀ (msgs : List Message) (acc : Option (List (String × String))),
      msgs.foldl (fun a m => scanToolCalls a m.tool_calls) acc =
        fallback (lastMutationArgs (executedCalls msgs)) acc := by
  intro msgs
  induction msgs with
  | nil => intro acc; simp [executedCalls, lastMutationArgs, lastOf, fallback]
  | cons m ms ih =>
      intro acc
      have hstep : (m :: ms).foldl (fun a m => scanToolCalls a m.tool_calls) acc =
          ms.foldl (fun a m => scanToolCalls a m.tool_calls) (scanToolCalls acc m.tool_calls) := rfl
      rw [hstep, ih, scanToolCalls_eq]
      have hexe : executedCalls (m :: ms) = m.tool_calls ++ executedCalls ms := rfl
      rw [hexe, lastMutationArgs_append, fallback_assoc]

theorem extractFormData_eq (msgs : List Message) :
    extractFormData msgs = lastMutationArgs (executedCalls msgs) := by
  rw [extractFormData, extract_go, fallback_none]

/-- Claim C1: an Edit invocation with a non-empty update set (against a
reachable store) succeeds, rewrites the stored rows only by applying the
update set to the identifier-maximal row, and that application changes
only the fields the caller supplied with a concrete value (present, not
the unset marker "None", and non-blank): any field that is absent or
supplied as the unset marker keeps its prior stored value and is never
overwritten with a blank. -/
theorem edit_changes_only_supplied_fields (a : EditArgs) (db : DB)
    (hc : db.connFail = false) (hu : updateSet a ≠ []) :
    (∃ db' , edit_interaction a db = Except.ok (db' , "✅ Interaction updated in database.") ∧
        db'.interactions =
          updateFirstWithId (fun r => applyUpdates r (updateSet a)) (maxId db.interactions)
            db.interactions) ∧
    (∀ (r : InteractionRow) (f : Col),
        fieldVal (applyUpdates r (updateSet a)) f ≠ fieldVal r f →
        ∃ v, suppliedVal a f = some v ∧ v ≠ "" ∧ v ≠ "None" ∧
          fieldVal (applyUpdates r (updateSet a)) f = v) ∧
    (∀ (r : InteractionRow) (f : Col),
        suppliedVal a f = none ∨ suppliedVal a f = some "None" →
        fieldVal (applyUpdates r (updateSet a)) f = fieldVal r f) := by
  refine ⟨⟨_, edit_interaction_ok a db hc hu, rfl⟩, ?_, ?_⟩
  · intro r f hne
    rw [fieldVal_merge] at hne ⊢
    cases hsup : suppliedVal a f with
    | none => rw [hsup] at hne; exact absurd rfl hne
    | some s =>
        rw [hsup] at hne
        by_cases hcond : s ≠ "" ∧ s ≠ "None"
        · exact ⟨s, rfl, hcond.1, hcond.2, by simp [keepOr, hcond]⟩
        · rw [show keepOr (fieldVal r f) (some s) = fieldVal r f by simp [keepOr, hcond]] at hne
          exact absurd rfl hne
  · intro r f hsup
    rw [fieldVal_merge]
    rcases hsup with h | h <;> simp [h, keepOr]

/-- Claim C1 witness: editing only the sentiment of the two-row demo
store succeeds and rewrites exactly the identifier-maximal row. -/
theorem edit_changes_only_supplied_fields_witness :
    ∃ db' , edit_interaction editSentiment dbDemo2 =
        Except.ok (db' , "✅ Interaction updated in database.") ∧
      db'.interactions =
        updateFirstWithId (fun r => applyUpdates r (updateSet editSentiment))
          (maxId dbDemo2.interactions) dbDemo2.interactions :=
  (edit_changes_only_supplied_fields editSentiment dbDemo2 rfl (by decide)).1

/-- Claim C2: an Edit invocation targets exactly the stored record with
the maximal identifier — whatever the supplied arguments, every row
whose identifier is not maximal is returned unchanged at its position,
and the (first) maximal-identifier row receives the update; concretely,
logging two records and then editing changes only the second. -/
theorem edit_targets_identifier_maximal_row (a : EditArgs) (db : DB)
    (hc : db.connFail = false) (hu : updateSet a ≠ []) :
    (∃ db' , edit_interaction a db = Except.ok (db' , "✅ Interaction updated in database.") ∧
      (∀ (j : Nat) (r : InteractionRow),
          db.interactions[j]? = some r → r.id ≠ maxId db.interactions →
          db'.interactions[j]? = some r) ∧
      (db.interactions ≠ [] →
        ∃ (j : Nat) (t : InteractionRow),
          db.interactions[j]? = some t ∧ t.id = maxId db.interactions ∧
          db'.interactions[j]? = some (applyUpdates t (updateSet a)))) ∧
    (log_interaction logA db0 = Except.ok (dbDemo1, "✅ Interaction logged successfully.") ∧
     log_interaction logB dbDemo1 = Except.ok (dbDemo2, "✅ Interaction logged successfully.") ∧
     edit_interaction editSentiment dbDemo2 =
       Except.ok (dbDemo3, "✅ Interaction updated in database.")) := by
  refine ⟨⟨_, edit_interaction_ok a db hc hu, ?_, ?_⟩, rfl, rfl, rfl⟩
  · intro j r hj hne
    exact updateFirstWithId_ne _ _ db.interactions j r hj hne
  · intro hrows
    rcases updateFirstWithId_hit (fun r => applyUpdates r (updateSet a))
        (maxId db.interactions) db.interactions (maxId_mem db.interactions hrows) with
      ⟨j, t, hj, hid, hres⟩
    exact ⟨j, t, hj, hid, hres⟩

/-- Claim C2 witness: the demo instance — two logged rows, the Edit
touches only the identifier-maximal second row. -/
theorem edit_targets_identifier_maximal_row_witness :
    log_interaction logA db0 = Except.ok (dbDemo1, "✅ Interaction logged successfully.") ∧
    log_interaction logB dbDemo1 = Except.ok (dbDemo2, "✅ Interaction logged successfully.") ∧
    edit_interaction editSentiment dbDemo2 =
      Except.ok (dbDemo3, "✅ Interaction updated in database.") :=
  (edit_targets_identifier_maximal_row editSentiment dbDemo2 rfl (by decide)).2

/-- Claim C5: an Edit invocation whose update set is empty (every field
absent, blank, or the unset marker) returns "No changes requested." with
the store state — statement trace included — completely unchanged: the
store is never called. -/
theorem edit_empty_update_no_store (a : EditArgs) (db : DB)
    (hc : db.connFail = false) (he : updateSet a = []) :
    edit_interaction a db = Except.ok (db, "No changes requested.") := by
  simp [edit_interaction, get_db, hc, he]

/-- Claim C5 witness: an Edit supplying only a blank topics value and an
unset-marker sentiment has an empty update set and changes nothing. -/
theorem edit_empty_update_no_store_witness :
    edit_interaction ⟨none, none, none, some "", some "None", none⟩ db0 =
      Except.ok (db0, "No changes requested.") :=
  edit_empty_update_no_store ⟨none, none, none, some "", some "None", none⟩ db0 rfl (by decide)

/-- Claim C3 counterexample: a Log call that supplies only the provider
name does not bind to the tool's signature — `type` and `date` carry no
default — so the invocation fails instead of creating a record with
unset markers; "only the provider name is required" is false. -/
theorem log_only_name_fails :
    bindLogArgs ⟨some "Dr. Smith", none, none, none, none, none⟩ = none := rfl

/-- Claim C3 (amended): a Log invocation requires the provider name, the
interaction type and the interaction date; topics, sentiment and
outcomes are optional, defaulting to the unset marker "None"; the
created record carries every supplied or defaulted value literally —
the unset marker is stored as such, and nothing is guessed or
inferred. -/
theorem log_required_args_and_unset_defaults (c : LogCallArgs) (h t d : String) (db : DB)
    (hh : c.hcp_name = some h) (ht : c.type = some t) (hd : c.date = some d)
    (hc : db.connFail = false) :
    bindLogArgs c =
      some ⟨h, t, d, c.topics.getD "None", c.sentiment.getD "None", c.outcomes.getD "None"⟩ ∧
    log_interaction
        ⟨h, t, d, c.topics.getD "None", c.sentiment.getD "None", c.outcomes.getD "None"⟩ db =
      Except.ok ({ db with
                    interactions := db.interactions ++
                      [⟨db.nextId, h, t, d, c.topics.getD "None", c.sentiment.getD "None",
                        c.outcomes.getD "None"⟩],
                    nextId := db.nextId + 1,
                    stmts := db.stmts ++
                      [Stmt.insertStmt
                        ⟨db.nextId, h, t, d, c.topics.getD "None", c.sentiment.getD "None",
                          c.outcomes.getD "None"⟩] },
                 "✅ Interaction logged successfully.") := by
  constructor
  · simp [bindLogArgs, hh, ht, hd]
  · exact log_interaction_ok _ db hc

/-- Claim C3 witness: required arguments supplied, sentiment supplied,
the remaining optionals defaulting literally to "None". -/
theorem log_required_args_and_unset_defaults_witness :
    bindLogArgs ⟨some "Dr. Jones", some "call", some "2026-10-12", none, some "positive", none⟩ =
      some ⟨"Dr. Jones", "call", "2026-10-12", "None", "positive", "None"⟩ ∧
    log_interaction ⟨"Dr. Jones", "call", "2026-10-12", "None", "positive", "None"⟩ db0 =
      Except.ok (⟨[⟨1, "Dr. Jones", "call", "2026-10-12", "None", "positive", "None"⟩], 2, [],
                   false,
                   [Stmt.insertStmt
                     ⟨1, "Dr. Jones", "call", "2026-10-12", "None", "positive", "None"⟩]⟩,
        "✅ Interaction logged successfully.") :=
  log_required_args_and_unset_defaults
    ⟨some "Dr. Jones", some "call", some "2026-10-12", none, some "positive", none⟩
    "Dr. Jones" "call" "2026-10-12" db0 rfl rfl rfl rfl

/-- Claim C4: the turn's extracted-arguments snapshot equals the argument
mapping of the last executed invocation named log_interaction or
edit_interaction, is absent when no such invocation occurred, and the
response is the last message's own content; in a Search-Log-Search turn
the snapshot is exactly the Log call's arguments. -/
theorem chat_snapshot_is_last_mutation :
    (∀ msgs : List Message, extractFormData msgs = lastMutationArgs (executedCalls msgs)) ∧
    (∀ msgs : List Message, (executedCalls msgs).filter isMutation = [] →
        extractFormData msgs = none) ∧
    (∀ msgs : List Message,
        chatTurn msgs = ((lastOf msgs).map (fun m => m.content), extractFormData msgs)) ∧
    chatTurn demoMsgs = (some "done", some logCall.args) ∧
    chatTurn [⟨"hello", []⟩] = (some "hello", none) := by
  refine ⟨extractFormData_eq, ?_, fun msgs => rfl, by decide, rfl⟩
  intro msgs hnone
  rw [extractFormData_eq, lastMutationArgs, hnone]
  rfl

/-- Claim C4 witness: a turn executing a single Search yields an absent
snapshot. -/
theorem chat_snapshot_is_last_mutation_witness :
    extractFormData [⟨"searching", [searchCall]⟩] = none :=
  chat_snapshot_is_last_mutation.2.1 [⟨"searching", [searchCall]⟩] (by decide)

/-- Claim C6: the compliance scan flags exactly the restricted terms
present (case-insensitively, as substrings) in the text, in the fixed
list's canonical order: "This drug is a MIRACLE cure" flags exactly
["cure", "miracle"], and clean text flags nothing. -/
theorem compliance_scan_flags_exact_subset :
    (∀ (text w : String),
        w ∈ flaggedTerms text ↔ w ∈ risky_keywords ∧ termPresent w text = true) ∧
    (∀ text : String, List.Sublist (flaggedTerms text) risky_keywords) ∧
    flaggedTerms "This drug is a MIRACLE cure" = ["cure", "miracle"] ∧
    flaggedTerms "Discussed dosage and scheduling." = [] ∧
    check_compliance "Discussed dosage and scheduling." = "✅ Compliance Check Passed." := by
  refine ⟨?_, ?_, by decide, by decide, by decide⟩
  · intro text w
    simp [flaggedTerms, List.mem_filter]
  · intro text
    exact List.filter_sublist risky_keywords

/-- Claim C7 counterexample: a store failure inside a Search invocation
is not converted to a string result — `search_hcp` has no try/except, so
the exception escapes the invocation instead of being folded into its
textual result. -/
theorem search_failure_escapes :
    search_hcp "Smith" dbFail = Except.error (PyError.storeError connErrText) := rfl

/-- Claim C7 (amended): Log, Edit and compliance-check invocations always
produce a string result — failures inside them are caught and rendered
as human-readable text — but a Search invocation does not catch store
failures: on a failing connection it raises instead of returning a
result. -/
theorem op_failures_reported_as_text :
    (∀ (a : LogArgs) (db : DB), ∃ out, log_interaction a db = Except.ok out) ∧
    (∀ (a : EditArgs) (db : DB), ∃ out, edit_interaction a db = Except.ok out) ∧
    (∀ (t : String) (db : DB), ∃ out, compliance_tool t db = Except.ok out) ∧
    (∀ (a : LogArgs) (db : DB), db.connFail = true →
        log_interaction a db = Except.ok (db, "❌ Error logging interaction: " ++ connErrText)) ∧
    (∀ (a : EditArgs) (db : DB), db.connFail = true →
        edit_interaction a db = Except.ok (db, "❌ Error updating: " ++ connErrText)) ∧
    (∀ (q : String) (db : DB), db.connFail = true →
        search_hcp q db = Except.error (PyError.storeError connErrText)) := by
  refine ⟨?_, ?_, fun t db => ⟨_, rfl⟩, ?_, ?_, ?_⟩
  · intro a db
    cases hcf : db.connFail
    · exact ⟨_, log_interaction_ok a db hcf⟩
    · exact ⟨(db, "❌ Error logging interaction: " ++ connErrText),
        by simp [log_interaction, get_db, hcf, PyError.msg]⟩
  · intro a db
    cases hcf : db.connFail
    · by_cases hu : updateSet a = []
      · exact ⟨(db, "No changes requested."), by simp [edit_interaction, get_db, hcf, hu]⟩
      · exact ⟨_, edit_interaction_ok a db hcf hu⟩
    · exact ⟨(db, "❌ Error updating: " ++ connErrText),
        by simp [edit_interaction, get_db, hcf, PyError.msg]⟩
  · intro a db hcf
    simp [log_interaction, get_db, hcf, PyError.msg]
  · intro a db hcf
    simp [edit_interaction, get_db, hcf, PyError.msg]
  · intro q db hcf
    simp [search_hcp, get_db, hcf]

/-- Claim C7 witness: on a failing connection a Log invocation still
returns a textual result, the caught exception rendered into it. -/
theorem op_failures_reported_as_text_witness :
    log_interaction logA dbFail =
      Except.ok (dbFail, "❌ Error logging interaction: " ++ connErrText) :=
  op_failures_reported_as_text.2.2.2.1 logA dbFail rfl

/-- Claim C8 counterexample: an Edit with a non-empty update set against
an empty store does not fail with any not-found error — the UPDATE simply
matches zero rows — and the invocation reports the plain success text. -/
theorem edit_no_rows_reports_success :
    edit_interaction editSentiment db0 =
      Except.ok (⟨[], 1, [], false, [Stmt.updateStmt [(Col.sentiment, "positive")]]⟩,
        "✅ Interaction updated in database.") := rfl

/-- Claim C8 (amended): an Edit invocation with a non-empty update set
executed when no records exist raises nothing: the UPDATE matches zero
rows, the stored row set stays empty, and the operation returns the
success text "✅ Interaction updated in database." — no NotFoundError
exists in the code. -/
theorem edit_no_rows_succeeds (a : EditArgs) (db : DB)
    (hc : db.connFail = false) (hu : updateSet a ≠ []) (hrows : db.interactions = []) :
    ∃ db' , edit_interaction a db = Except.ok (db' , "✅ Interaction updated in database.") ∧
      db'.interactions = [] := by
  refine ⟨_, edit_interaction_ok a db hc hu, ?_⟩
  simp [hrows, updateFirstWithId]

/-- Claim C8 witness: the empty demo store, editing only the
sentiment. -/
theorem edit_no_rows_succeeds_witness :
    ∃ db' , edit_interaction editSentiment db0 =
        Except.ok (db' , "✅ Interaction updated in database.") ∧
      db'.interactions = [] :=
  edit_no_rows_succeeds editSentiment db0 rfl (by decide) rfl

/-- Claim C9 counterexample: logging into a store whose next identifier
is 7 assigns identifier 7 to the created row, yet the returned success
message is the fixed text, which does not contain that identifier. -/
theorem log_message_lacks_identifier :
    log_interaction logB db7 =
      Except.ok (⟨[⟨7, "Dr. Brown", "call", "2026-10-02", "None", "None", "None"⟩], 8, [],
                   false,
                   [Stmt.insertStmt ⟨7, "Dr. Brown", "call", "2026-10-02", "None", "None", "None"⟩]⟩,
        "✅ Interaction logged successfully.") ∧
    containsSub "7".data "✅ Interaction logged successfully.".data = false :=
  ⟨rfl, by decide⟩

/-- Claim C9 (amended): every successful Log invocation returns the one
fixed success message "✅ Interaction logged successfully.", the same
for every store state — the assigned identifier is not included in
it. -/
theorem log_success_message_fixed (a : LogArgs) (db : DB) (hc : db.connFail = false) :
    ∃ db' , log_interaction a db = Except.ok (db' , "✅ Interaction logged successfully.") :=
  ⟨_, log_interaction_ok a db hc⟩

/-- Claim C9 witness. -/
theorem log_success_message_fixed_witness :
    ∃ db' , log_interaction logA db0 = Except.ok (db' , "✅ Interaction logged successfully.") :=
  log_success_message_fixed logA db0 rfl

theorem applyUpdates_no_blank (a : EditArgs) (r : InteractionRow) (f : Col)
    (h : fieldVal (applyUpdates r (updateSet a)) f = "") : fieldVal r f = "" := by
  rw [fieldVal_merge] at h
  cases hsup : suppliedVal a f with
  | none => rw [hsup] at h; exact h
  | some s =>
      rw [hsup] at h
      by_cases hcond : s ≠ "" ∧ s ≠ "None"
      · rw [show keepOr (fieldVal r f) (some s) = s by simp [keepOr, hcond]] at h
        exact absurd h hcond.1
      · rw [show keepOr (fieldVal r f) (some s) = fieldVal r f by simp [keepOr, hcond]] at h
        exact h

/-- Claim C10: an Edit argument supplied as the empty string is excluded
from the update set exactly as if it were absent — for every field,
replacing an empty-string argument by an absent one leaves the update
set unchanged — and consequently Edit can never write an empty string
into a stored record: any blank field after an Edit was already blank
before it. -/
theorem edit_empty_string_like_absent :
    (∀ a : EditArgs,
        updateSet { a with hcp_name := some "" } = updateSet { a with hcp_name := none }) ∧
    (∀ a : EditArgs,
        updateSet { a with type := some "" } = updateSet { a with type := none }) ∧
    (∀ a : EditArgs,
        updateSet { a with date := some "" } = updateSet { a with date := none }) ∧
    (∀ a : EditArgs,
        updateSet { a with topics := some "" } = updateSet { a with topics := none }) ∧
    (∀ a : EditArgs,
        updateSet { a with sentiment := some "" } = updateSet { a with sentiment := none }) ∧
    (∀ a : EditArgs,
        updateSet { a with outcomes := some "" } = updateSet { a with outcomes := none }) ∧
    (∀ (a : EditArgs) (r : InteractionRow) (f : Col),
        fieldVal (applyUpdates r (updateSet a)) f = "" → fieldVal r f = "") ∧
    (∀ (a : EditArgs) (db db' : DB) (msg : String),
        edit_interaction a db = Except.ok (db' , msg) →
        ∀ r' ∈ db'.interactions, ∃ r ∈ db.interactions, ∀ f : Col,
          fieldVal r' f = "" → fieldVal r f = "") := by
  refine ⟨fun a => by simp [updateSet, entry], fun a => by simp [updateSet, entry],
    fun a => by simp [updateSet, entry], fun a => by simp [updateSet, entry],
    fun a => by simp [updateSet, entry], fun a => by simp [updateSet, entry],
    applyUpdates_no_blank, ?_⟩
  intro a db db' msg heq r' hmem
  revert heq
  cases hcf : db.connFail with
  | true =>
      intro heq
      rw [show edit_interaction a db = Except.ok (db, "❌ Error updating: " ++ connErrText) by
        simp [edit_interaction, get_db, hcf, PyError.msg]] at heq
      have hdb : db = db' := congrArg Prod.fst (Except.ok.inj heq)
      subst hdb
      exact ⟨r', hmem, fun f h => h⟩
  | false =>
      by_cases hu : updateSet a = []
      · intro heq
        rw [show edit_interaction a db = Except.ok (db, "No changes requested.") by
          simp [edit_interaction, get_db, hcf, hu]] at heq
        have hdb : db = db' := congrArg Prod.fst (Except.ok.inj heq)
        subst hdb
        exact ⟨r', hmem, fun f h => h⟩
      · intro heq
        rw [edit_interaction_ok a db hcf hu] at heq
        have hdb : ({ db with
            interactions :=
              updateFirstWithId (fun r => applyUpdates r (updateSet a)) (maxId db.interactions)
                db.interactions,
            stmts := db.stmts ++ [Stmt.updateStmt (updateSet a)] } : DB) = db' :=
          congrArg Prod.fst (Except.ok.inj heq)
        have hint : db'.interactions =
            updateFirstWithId (fun r => applyUpdates r (updateSet a)) (maxId db.interactions)
              db.interactions := by
          rw [← hdb]
        rw [hint] at hmem
        rcases updateFirstWithId_mem _ _ db.interactions r' hmem with hin | ⟨r, hr, hre⟩
        · exact ⟨r', hin, fun f h => h⟩
        · exact ⟨r, hr, fun f h => applyUpdates_no_blank a r f (by rw [← hre]; exact h)⟩

/-- Claim C10 witness: a stored blank topics value survives an Edit that
touches only the sentiment — any blank after the Edit was already blank
before it. -/
theorem edit_empty_string_like_absent_witness :
    fieldVal (applyUpdates rowEmptyTopics (updateSet editSentiment)) Col.topics_discussed = "" ∧
    fieldVal rowEmptyTopics Col.topics_discussed = "" :=
  ⟨by decide, edit_empty_string_like_absent.2.2.2.2.2.2.1 editSentiment rowEmptyTopics
    Col.topics_discussed (by decide)⟩
